import Mathlib

/-!
# Formal model of the `ember-formidable` form state store

This file gives a shallow embedding, in Lean 4, of the state-management core of
the Formidable component (the current revision of the component, whose source is
the class `Formidable` carried alongside the integration tests in
`test-app/tests/integration/components/formidable-rollback-test.gts`; the files
`ember-formidable/src/components/formidable/index.ts` and `unnamed/part_000`
hold earlier revisions of the same class, which are consulted where noted).

JavaScript runtime values are modelled by the inductive type `Val`; the tracked
containers (`values`, `rollbackValues`, `errors`, `dirtyFields`) are modelled as
`Val` objects, i.e. insertion-ordered association lists, exactly as plain JS
objects behave.  The lodash helpers used by the component (`get`, `set`,
`unset`, `isEmpty`, `isEqual`) are modelled on `Val` below; deep cloning
(`cloneDeep` / fresh `TrackedObject` wrappers) is the identity in this pure
value model, since cloning is only observable through aliasing.  Asynchronous
methods are modelled synchronously, except for `validate`, which additionally
gets a split start/settle presentation so that overlapping validation requests
can be interleaved explicitly.
-/

set_option autoImplicit false

/-- JavaScript-like runtime values: the leaf types the component manipulates
(strings, numbers with a NaN sentinel, booleans, dates with an invalid-date
sentinel, `undefined`, `null`) plus arrays and plain objects.  Objects are
insertion-ordered association lists, matching JS own-property order. -/
inductive Val where
  | vUndef : Val
  | vNull : Val
  | vStr (s : String) : Val
  | vNum (n : Int) : Val
  | vNaN : Val
  | vBool (b : Bool) : Val
  | vDate (t : Int) : Val
  | vInvalidDate : Val
  | vArr (elems : List Val) : Val
  | vObj (fields : List (String × Val)) : Val

mutual
/-- Model of lodash `isEqual`: structural deep equality, order-insensitive on
object keys, order-sensitive on arrays.  Leaves are compared with
SameValueZero semantics, so `NaN` equals `NaN` and two invalid dates (both
with `NaN` time values) compare equal. -/
def eqVal : Val → Val → Bool
  | Val.vUndef, Val.vUndef => true
  | Val.vNull, Val.vNull => true
  | Val.vStr a, Val.vStr b => a == b
  | Val.vNum a, Val.vNum b => a == b
  | Val.vNaN, Val.vNaN => true
  | Val.vBool a, Val.vBool b => a == b
  | Val.vDate a, Val.vDate b => a == b
  | Val.vInvalidDate, Val.vInvalidDate => true
  | Val.vArr a, Val.vArr b => eqValList a b
  | Val.vObj a, Val.vObj b => a.length == b.length && eqFieldsSub a b
  | _, _ => false

/-- Pointwise deep equality of array elements. -/
def eqValList : List Val → List Val → Bool
  | [], [] => true
  | a :: restA, b :: restB => eqVal a b && eqValList restA restB
  | _, _ => false

/-- Every field of the first object occurs (with a deep-equal value) in the
second; with the length check in `eqVal` this is object equality for
duplicate-free objects. -/
def eqFieldsSub : List (String × Val) → List (String × Val) → Bool
  | [], _ => true
  | (k, v) :: rest, f2 => lookupEq k v f2 && eqFieldsSub rest f2

/-- Look up key `k` in the field list and deep-compare the value found. -/
def lookupEq : String → Val → List (String × Val) → Bool
  | _, _, [] => false
  | k, v, (k2, v2) :: rest => if k == k2 then eqVal v v2 else lookupEq k v rest
end

/-- JS truthiness (`Boolean(v)` / the test of an `if`): `undefined`, `null`,
`false`, `0`, `NaN` and the empty string are falsy; every object (including
arrays, dates and invalid dates) is truthy. -/
def truthy : Val → Bool
  | Val.vUndef => false
  | Val.vNull => false
  | Val.vBool b => b
  | Val.vNum n => !(n == 0)
  | Val.vNaN => false
  | Val.vStr s => !s.isEmpty
  | _ => true

/-- JS nullishness: exactly `undefined` and `null`. -/
def isNullish : Val → Bool
  | Val.vUndef => true
  | Val.vNull => true
  | _ => false

/-- JS nullish coalescing `a ?? b`. -/
def nullishElse (a b : Val) : Val :=
  if isNullish a then b else a

/-- Model of lodash `isEmpty`: collections are empty iff they have no
elements/keys/characters; all non-collection values (numbers, booleans, dates,
`null`, `undefined`) count as empty. -/
def isEmptyV : Val → Bool
  | Val.vObj fs => fs.isEmpty
  | Val.vArr xs => xs.isEmpty
  | Val.vStr s => s.isEmpty
  | _ => true

/-- The field list of an object value (empty for non-objects). -/
def objFields : Val → List (String × Val)
  | Val.vObj fs => fs
  | _ => []

/-- The keys of a field list. -/
def keyList (fs : List (String × Val)) : List String :=
  fs.map Prod.fst

/-- First-match association-list lookup, i.e. JS own-property read. -/
def objLookup : List (String × Val) → String → Option Val
  | [], _ => none
  | (k1, v1) :: rest, k => if k1 = k then some v1 else objLookup rest k

/-- In-place update of key `k` (JS property assignment): overwrite the first
occurrence, else append at the end, preserving property order. -/
def setField : List (String × Val) → String → Val → List (String × Val)
  | [], k, v => [(k, v)]
  | (k1, v1) :: rest, k, v =>
    if k1 = k then (k1, v) :: rest else (k1, v1) :: setField rest k v

/-- JS `delete obj[k]`: drop the key, preserving the order of the others. -/
def removeField : List (String × Val) → String → List (String × Val)
  | [], _ => []
  | (k1, v1) :: rest, k =>
    if k1 = k then removeField rest k else (k1, v1) :: removeField rest k

/-- Split a character list on a separator character. -/
def splitChars (sep : Char) : List Char → List Char → List String
  | [], acc => [String.mk acc.reverse]
  | c :: rest, acc =>
    if c = sep then String.mk acc.reverse :: splitChars sep rest []
    else splitChars sep rest (c :: acc)

/-- Split a dotted key, e.g. `"a.b"` into `["a", "b"]` (model of lodash
`stringToPath`, restricted to dot notation, which is the only form the
component uses). -/
def splitPath (s : String) : List String :=
  splitChars '.' s.data []

/-- Does the key contain a dot (so that lodash would treat it as a path)? -/
def hasDot (s : String) : Bool :=
  s.data.contains '.'

/-- Model of lodash's unsigned-index test (`reIsUint`): a non-empty digit
string without a leading zero (except `"0"` itself). -/
def isIndexStr (s : String) : Bool :=
  !s.data.isEmpty && s.data.all Char.isDigit &&
    (s.data.head? != some '0' || s.data.length == 1)

/-- Numeric value of a digit string. -/
def digitsToNat (cs : List Char) : Nat :=
  cs.foldl (fun acc c => acc * 10 + (c.toNat - 48)) 0

/-- Element update at index `i`, padding with `undefined` (JS assignment past
the end of an array creates a sparse array, whose holes read as `undefined`). -/
def listSetPad (xs : List Val) (i : Nat) (v : Val) : List Val :=
  match xs, i with
  | [], 0 => [v]
  | [], Nat.succ j => Val.vUndef :: listSetPad [] j v
  | _ :: rest, 0 => v :: rest
  | x :: rest, Nat.succ j => x :: listSetPad rest j v

/-- Direct (single-key, bracket-style) property read: `o[k]`, `undefined` when
absent or when the receiver has no such property. -/
def directGetV : Val → String → Val
  | Val.vObj fs, k => (objLookup fs k).getD Val.vUndef
  | Val.vArr xs, k =>
    if isIndexStr k then (xs.get? (digitsToNat k.data)).getD Val.vUndef
    else Val.vUndef
  | _, _ => Val.vUndef

/-- Direct (single-key, bracket-style) property write: `o[k] = v`.  Writes to
non-container values are dropped, since they are unobservable in JS. -/
def directSetV : Val → String → Val → Val
  | Val.vObj fs, k, v => Val.vObj (setField fs k v)
  | Val.vArr xs, k, v =>
    if isIndexStr k then Val.vArr (listSetPad xs (digitsToNat k.data) v)
    else Val.vArr xs
  | o, _, _ => o

/-- Direct key removal: `delete o[k]`.  Deleting an array index leaves a hole,
which reads back as `undefined`. -/
def directUnsetV : Val → String → Val
  | Val.vObj fs, k => Val.vObj (removeField fs k)
  | Val.vArr xs, k =>
    if isIndexStr k && digitsToNat k.data < xs.length then
      Val.vArr (listSetPad xs (digitsToNat k.data) Val.vUndef)
    else Val.vArr xs
  | o, _ => o

/-- Does the object have this literal own key? (`k in o`). -/
def hasOwnKey : Val → String → Bool
  | Val.vObj fs, k => (objLookup fs k).isSome
  | Val.vArr xs, k => isIndexStr k && digitsToNat k.data < xs.length
  | _, _ => false

/-- Model of lodash `isKey`: a dotted string is still treated as a single key
when the receiver has it as a literal own property; a dot-free string is
always a single key. -/
def castsAsKey (k : String) (o : Val) : Bool :=
  !hasDot k || hasOwnKey o k

/-- Containers that lodash `baseSet` descends into (`isObject`). -/
def isObjLike : Val → Bool
  | Val.vObj _ => true
  | Val.vArr _ => true
  | Val.vDate _ => true
  | Val.vInvalidDate => true
  | _ => false

/-- Walk a path by successive direct reads (lodash `baseGet`). -/
def getSegs : Val → List String → Val
  | v, [] => v
  | o, s :: rest => getSegs (directGetV o s) rest

/-- Model of lodash `get(o, k)` with a string key. -/
def lodashGet (o : Val) (k : String) : Val :=
  if castsAsKey k o then directGetV o k else getSegs o (splitPath k)

/-- Walk a path creating intermediate containers (lodash `baseSet`): a missing
or primitive intermediate is replaced by a fresh array when the next segment is
an index, else a fresh object. -/
def setSegs : Val → List String → Val → Val
  | _, [], v => v
  | o, [s], v => directSetV o s v
  | o, s :: s2 :: rest, v =>
    let child := directGetV o s
    let child2 := if isObjLike child then child
      else if isIndexStr s2 then Val.vArr [] else Val.vObj []
    directSetV o s (setSegs child2 (s2 :: rest) v)

/-- Model of lodash `set(o, k, v)` with a string key. -/
def lodashSet (o : Val) (k : String) (v : Val) : Val :=
  if castsAsKey k o then directSetV o k v else setSegs o (splitPath k) v

/-- Walk a path and delete the final key (lodash `baseUnset`); a missing
intermediate makes the whole operation a no-op. -/
def unsetSegs : Val → List String → Val
  | o, [] => o
  | o, [s] => directUnsetV o s
  | o, s :: s2 :: rest =>
    let child := directGetV o s
    if isObjLike child then directSetV o s (unsetSegs child (s2 :: rest)) else o

/-- Model of lodash `unset(o, k)` with a string key. -/
def lodashUnset (o : Val) (k : String) : Val :=
  if castsAsKey k o then directUnsetV o k else unsetSegs o (splitPath k)

/-- Integer parse of a trimmed JS numeric string: optional sign followed by
digits.  (The model restricts JS number syntax to integer literals, which is
all the repository's values exercise.) -/
def parseIntChars : List Char → Option Int
  | [] => none
  | '-' :: rest =>
    if !rest.isEmpty && rest.all Char.isDigit then some (-(digitsToNat rest : Int))
    else none
  | '+' :: rest =>
    if !rest.isEmpty && rest.all Char.isDigit then some (digitsToNat rest : Int)
    else none
  | cs =>
    if cs.all Char.isDigit then some (digitsToNat cs : Int) else none

/-- Model of JS numeric coercion `+v` / `Number(v)`: numbers and dates pass
through as their numeric value, booleans map to 0/1, `null` and the empty
string map to 0, `undefined` and unparsable strings map to `NaN`.  Arrays and
objects are mapped to `NaN` (the model omits the `toPrimitive` corner cases the
component never exercises). -/
def toNumber : Val → Val
  | Val.vNum n => Val.vNum n
  | Val.vNaN => Val.vNaN
  | Val.vBool b => Val.vNum (if b then 1 else 0)
  | Val.vNull => Val.vNum 0
  | Val.vUndef => Val.vNaN
  | Val.vDate t => Val.vNum t
  | Val.vInvalidDate => Val.vNaN
  | Val.vStr s =>
    if s.data.isEmpty then Val.vNum 0
    else match parseIntChars s.data with
      | some n => Val.vNum n
      | none => Val.vNaN
  | _ => Val.vNaN

/-- Abstract encoding of a `YYYY-MM-DD` date literal as a single integer; the
model only needs distinct literals to yield distinct dates. -/
def dateCode (y m d : Nat) : Int :=
  (y * 10000 + m * 100 + d : Nat)

/-- Model of JS `new Date(v)`: numbers (and booleans, via their numeric value)
become timestamps, strings are accepted exactly when they are `YYYY-MM-DD`
digit literals (the only shape the repository's values use), everything
unparsable becomes the invalid-date sentinel. -/
def toDate : Val → Val
  | Val.vNum n => Val.vDate n
  | Val.vDate t => Val.vDate t
  | Val.vBool b => Val.vDate (if b then 1 else 0)
  | Val.vNull => Val.vDate 0
  | Val.vStr s =>
    match splitChars '-' s.data [] with
    | [y, m, d] =>
      if !y.data.isEmpty && y.data.all Char.isDigit &&
          !m.data.isEmpty && m.data.all Char.isDigit &&
          !d.data.isEmpty && d.data.all Char.isDigit then
        Val.vDate (dateCode (digitsToNat y.data) (digitsToNat m.data) (digitsToNat d.data))
      else Val.vInvalidDate
    | _ => Val.vInvalidDate
  | _ => Val.vInvalidDate

/-- JS boolean coercion `Boolean(v)`, i.e. truthiness reified. -/
def toBoolean (v : Val) : Val :=
  Val.vBool (truthy v)

/-- The per-field parse directive recorded by `register` (`Parser` in the
source): the three coercion flags plus the optional custom formatter.  The
source stores `undefined` flags for unset options; the model collapses
`undefined` to `false`/`none`. -/
structure ParserCfg where
  valueAsNumber : Bool := false
  valueAsDate : Bool := false
  valueAsBoolean : Bool := false
  valueFormat : Option (Val → Val) := none

/-- Bracket read `this.parsers[key]` on the parser registry. -/
def parserFor : List (String × ParserCfg) → String → Option ParserCfg
  | [], _ => none
  | (k1, p) :: rest, k => if k1 = k then some p else parserFor rest k

/-- Modelled from the spec: the `formatValue(value, formats)` helper of
`-private/utils` is not among the provided sources; per spec section 4.2 (and
identically to the inline `parsedValues` logic of the earlier component
revision, `index.ts` lines 268-285) it applies at most one directive with
precedence custom formatter > numeric > date > boolean > identity. -/
def formatValue (v : Val) (p : Option ParserCfg) : Val :=
  match p with
  | none => v
  | some cfg =>
    match cfg.valueFormat with
    | some f => f v
    | none =>
      if cfg.valueAsNumber then toNumber v
      else if cfg.valueAsDate then toDate v
      else if cfg.valueAsBoolean then toBoolean v
      else v

/-- The component's update-event names (`HandlerEvent` in the source). -/
inductive HandlerEvent where
  | onChange : HandlerEvent
  | onSubmit : HandlerEvent
  | onBlur : HandlerEvent
  | onFocus : HandlerEvent
deriving DecidableEq

/-- The state of one `Formidable` component instance: the four tracked
containers, the parser registry, the constructor-captured validator, the
submit-lifecycle flags and counters, and the relevant args.  The external
validator is modelled as a pure function from the parsed values to an error
map (its extra options argument is constant over a run and is absorbed into
the closure); the `onSubmit` / `handler` callbacks are modelled by presence
and may-throw flags, since the component only calls and never inspects them. -/
structure Formidable where
  values : Val
  rollbackValues : Val
  errors : Val := Val.vObj []
  dirtyFields : Val := Val.vObj []
  parsers : List (String × ParserCfg) := []
  validator : Option (Val → Val) := none
  validateOn : List HandlerEvent := [HandlerEvent.onBlur, HandlerEvent.onSubmit]
  revalidateOn : List HandlerEvent := [HandlerEvent.onChange, HandlerEvent.onSubmit]
  handleOn : List HandlerEvent := [HandlerEvent.onSubmit]
  hasOnSubmit : Bool := false
  onSubmitThrows : Bool := false
  hasHandler : Bool := false
  handlerThrows : Bool := false
  isSubmitted : Bool := false
  isSubmitting : Bool := false
  isValidating : Bool := false
  isSubmitSuccessful : Option Bool := none
  submitCount : Nat := 0

/-- `get isValid() { return _isEmpty(this.errors); }` -/
def Formidable.isValid (st : Formidable) : Bool :=
  isEmptyV st.errors

/-- `get isInvalid() { return !this.isValid; }` -/
def Formidable.isInvalid (st : Formidable) : Bool :=
  !st.isValid

/-- `get isPristine() { return _isEmpty(this.dirtyFields); }` -/
def Formidable.isPristine (st : Formidable) : Bool :=
  isEmptyV st.dirtyFields

/-- `get isDirty() { return !this.isPristine; }` -/
def Formidable.isDirty (st : Formidable) : Bool :=
  !st.isPristine

/-- `get invalidFields()`: reduce the error-map keys into a fresh object via
lodash `_set(invalid, key, true)`, expanding dotted keys into nesting. -/
def Formidable.invalidFields (st : Formidable) : Val :=
  (keyList (objFields st.errors)).foldl
    (fun invalid key => lodashSet invalid key (Val.vBool true)) (Val.vObj [])

/-- `get parsedValues()`: rebuild an object from `Object.entries(this.values)`
by `_set(obj, key, formatValue(value, this.parsers[key]))`. -/
def Formidable.parsedValues (st : Formidable) : Val :=
  (objFields st.values).foldl
    (fun obj kv => lodashSet obj kv.1 (formatValue kv.2 (parserFor st.parsers kv.1)))
    (Val.vObj [])

/-- `getValue(field) { return get(this.parsedValues, field); }` -/
def Formidable.getValue (st : Formidable) (field : String) : Val :=
  lodashGet st.parsedValues field

/-- `getValues() { return this.parsedValues; }` -/
def Formidable.getValues (st : Formidable) : Val :=
  st.parsedValues

/-- `getDefaultValue(field) { return get(this.rollbackValues, field); }` -/
def Formidable.getDefaultValue (st : Formidable) (field : String) : Val :=
  lodashGet st.rollbackValues field

/-- The derived per-field state returned by `getFieldState`. -/
structure FieldState where
  isDirty : Bool
  isPristine : Bool
  isInvalid : Bool
  error : Val

/-- `getFieldState(name)`: `isDirty = this.dirtyFields[name] ?? false`,
`error = this.errors[name]`, `isInvalid = !_isEmpty(error)`.  The dirty flags
container only ever holds booleans, so the nullish-defaulted read is modelled
by matching on a stored boolean. -/
def Formidable.getFieldState (st : Formidable) (name : String) : FieldState :=
  let isDirty := match directGetV st.dirtyFields name with
    | Val.vBool b => b
    | _ => false
  { isDirty := isDirty
    isPristine := !isDirty
    isInvalid := !isEmptyV (directGetV st.errors name)
    error := directGetV st.errors name }

/-- `dirtyField(field)`: set the dirty flag to the deep inequality of the
rollback-snapshot value and the current parsed value of the field. -/
def Formidable.dirtyField (st : Formidable) (field : String) : Formidable :=
  { st with dirtyFields := (directSetV st.dirtyFields field
      (Val.vBool (!eqVal (lodashGet st.rollbackValues field)
        (lodashGet st.parsedValues field)))) }

/-- The options record of `setValue` (`SetContext` in the source). -/
structure SetContext where
  shouldValidate : Bool := false
  shouldDirty : Bool := false

/-- The options record of `rollback` (`RollbackContext` in the source);
an absent `defaultValue` is the `undefined` value. -/
structure RollbackContext where
  keepError : Bool := false
  keepDirty : Bool := false
  defaultValue : Val := Val.vUndef

/-- `shouldValidateOrRevalidate(eventType)`: before the first submit the
`validateOn` list governs, afterwards the `revalidateOn` list. -/
def Formidable.shouldValidateOrRevalidate (st : Formidable) (e : HandlerEvent) : Bool :=
  if st.submitCount > 0 then st.revalidateOn.contains e
  else st.validateOn.contains e

/-- An in-flight validation: the requested scope together with the error map
the external validator will deliver (the validator receives the parsed values
as of the request, so its eventual result is determined at start time). -/
structure PendingValidation where
  field : Option String
  result : Val

/-- The first half of `validate(field?)`, up to the `await` of the external
validator: set `isValidating`, and return without a pending request when no
validator was supplied (the `finally` clears the flag on that early return). -/
def Formidable.validateStart (st : Formidable) (field : Option String) :
    Formidable × Option PendingValidation :=
  let st1 := { st with isValidating := true }
  match st.validator with
  | none => ({ st1 with isValidating := false }, none)
  | some vfn => (st1, some { field := field, result := vfn st1.parsedValues })

/-- The second half of `validate(field?)`, after the external validator
settles: merge one field's slice via `_set(errors, field, get(validation,
field))`, or replace the whole error map; the `finally` clears
`isValidating`. -/
def Formidable.validateSettle (st : Formidable) (p : PendingValidation) : Formidable :=
  let st1 := match p.field with
    | some f => { st with errors := lodashSet st.errors f (lodashGet p.result f) }
    | none => { st with errors := p.result }
  { st1 with isValidating := false }

/-- `validate(field?)` run to completion with no interleaving: start, then
settle the pending request if one was issued. -/
def Formidable.validate (st : Formidable) (field : Option String) : Formidable :=
  match st.validateStart field with
  | (st1, none) => st1
  | (st1, some p) => st1.validateSettle p

/-- `setValue(field, value, { shouldValidate, shouldDirty })`: bracket-write
the raw value, then optionally mark dirty, then optionally validate that
field. -/
def Formidable.setValue (st : Formidable) (field : String) (value : Val)
    (ctx : SetContext) : Formidable :=
  let st1 := { st with values := directSetV st.values field value }
  let st2 := if ctx.shouldDirty then st1.dirtyField field else st1
  if ctx.shouldValidate then st2.validate (some field) else st2

/-- `clearError(field)`: `if (this.errors[field]) { _unset(this.errors,
field) }`. -/
def Formidable.clearError (st : Formidable) (field : String) : Formidable :=
  if truthy (directGetV st.errors field) then
    { st with errors := lodashUnset st.errors field }
  else st

/-- `clearErrors()`: replace the error map with a fresh empty object. -/
def Formidable.clearErrors (st : Formidable) : Formidable :=
  { st with errors := Val.vObj [] }

/-- `rollback(field?, { keepError, keepDirty, defaultValue })`.  Single-field
form: bracket-write `defaultValue ?? this.rollbackValues[field] ?? undefined`,
make a truthy `defaultValue` the new snapshot value, then drop the field's
error and dirty entries unless kept.  Whole-form: replace the live values with
a deep copy of the snapshot (the copy is the identity in this pure model),
clear errors and dirty flags unless kept, and reset `isSubmitted`. -/
def Formidable.rollback (st : Formidable) (field : Option String)
    (ctx : RollbackContext) : Formidable :=
  match field with
  | some f =>
    let newVal := nullishElse ctx.defaultValue
      (nullishElse (directGetV st.rollbackValues f) Val.vUndef)
    let st1 := { st with values := directSetV st.values f newVal }
    let st2 := if truthy ctx.defaultValue then
        { st1 with rollbackValues := directSetV st1.rollbackValues f ctx.defaultValue }
      else st1
    let st3 := if ctx.keepError then st2
      else { st2 with errors := lodashUnset st2.errors f }
    if ctx.keepDirty then st3
    else { st3 with dirtyFields := lodashUnset st3.dirtyFields f }
  | none =>
    let st1 := { st with values := st.rollbackValues }
    let st2 := if ctx.keepError then st1 else { st1 with errors := Val.vObj [] }
    let st3 := if ctx.keepDirty then st2
      else { st2 with dirtyFields := Val.vObj [] }
    { st3 with isSubmitted := false }

/-- The outcome of one `submit` call: the final state, whether an external
handler (`args.onSubmit` or the legacy `args.handler`) was invoked, and
whether the call ended in a propagated handler exception. -/
structure SubmitResult where
  state : Formidable
  handlerInvoked : Bool
  threw : Bool

/-- `submit(event)`: mark submitting/submitted, validate when the trigger
policy includes `onSubmit`, record `isSubmitSuccessful = isValid`, stop before
any handler when invalid, else call `args.onSubmit` (preferred) or the legacy
`args.handler`; the `finally` clears `isSubmitting` and increments
`submitCount` on every path, including a throwing handler. -/
def Formidable.submit (st : Formidable) : SubmitResult :=
  let st1 := { st with isSubmitting := true, isSubmitted := true }
  let st2 := if st1.shouldValidateOrRevalidate HandlerEvent.onSubmit then
      st1.validate none
    else st1
  let st3 := { st2 with isSubmitSuccessful := some st2.isValid }
  let finish := fun (s : Formidable) =>
    { s with isSubmitting := false, submitCount := s.submitCount + 1 }
  if st2.isValid then
    if st3.hasOnSubmit then
      { state := finish st3, handlerInvoked := true, threw := st3.onSubmitThrows }
    else if st3.handleOn.contains HandlerEvent.onSubmit && st3.hasHandler then
      { state := finish st3, handlerInvoked := true, threw := st3.handlerThrows }
    else { state := finish st3, handlerInvoked := false, threw := false }
  else { state := finish st3, handlerInvoked := false, threw := false }

/-! ## Spec-side predicates and sample states used by the theorems -/

/-- An error-map entry as the store produces them: an array of error records,
or `undefined` (which a field-scoped validate writes when the validator
reported nothing for that field). -/
def isErrEntry : Val → Bool
  | Val.vArr _ => true
  | Val.vUndef => true
  | _ => false

/-- Well-formedness of the error map: an object all of whose entries are
error-record arrays or `undefined`. -/
def errorsWF : Val → Bool
  | Val.vObj fs => fs.all fun kv => isErrEntry kv.2
  | _ => false

/-- The spec-side notion: the field has a non-empty error entry. -/
def hasNonEmptyErrorEntry (errors : Val) (f : String) : Bool :=
  match directGetV errors f with
  | Val.vArr (_ :: _) => true
  | _ => false

/-- Does a validator result report at least one field error (a non-empty
error array under some key)? -/
def hasFieldError (v : Val) : Bool :=
  (objFields v).any fun kv =>
    match kv.2 with
    | Val.vArr (_ :: _) => true
    | _ => false

/-- Sample state for C1: `foo` is registered with `valueAsNumber` and its
rollback-snapshot value is the raw string `"5"`. -/
def c1State : Formidable :=
  { values := Val.vObj [("foo", Val.vStr "0")]
    rollbackValues := Val.vObj [("foo", Val.vStr "5")]
    parsers := [("foo", { valueAsNumber := true })] }

/-- Validator for the C2 witness: always reports one error on `foo`. -/
def c2Validator (pv : Val) : Val :=
  Val.vObj [("foo", Val.vArr [Val.vObj [("type", Val.vStr "required"),
    ("message", Val.vStr "foo is required"), ("value", pv)]])]

/-- Sample state for C2, with both handlers configured and throwing, to
exercise the unconditional part as well. -/
def c2State : Formidable :=
  { values := Val.vObj [("foo", Val.vStr "")]
    rollbackValues := Val.vObj [("foo", Val.vStr "")]
    validator := some c2Validator
    hasOnSubmit := true
    onSubmitThrows := true
    hasHandler := true
    handlerThrows := true }

/-- Error map reported by the C3 validator when it sees `foo = "A"`. -/
def c3ErrorMap : Val :=
  Val.vObj [("foo", Val.vArr [Val.vObj [("type", Val.vStr "custom"),
    ("message", Val.vStr "foo must not be A"), ("value", Val.vStr "A")]])]

/-- Validator for the C3 counterexample: reports an error exactly when the
parsed `foo` is the string `"A"`. -/
def c3Validator (pv : Val) : Val :=
  match directGetV pv "foo" with
  | Val.vStr s => if s = "A" then c3ErrorMap else Val.vObj []
  | _ => Val.vObj []

/-- Sample state for C3. -/
def c3State : Formidable :=
  { values := Val.vObj [("foo", Val.vStr "A")]
    rollbackValues := Val.vObj [("foo", Val.vStr "A")]
    validator := some c3Validator }

/-- The first whole-form request, issued while `foo = "A"`. -/
def c3Start1 : Formidable × Option PendingValidation := c3State.validateStart none

/-- The pending result of the first request. -/
def c3Pending1 : PendingValidation :=
  c3Start1.2.getD { field := none, result := Val.vObj [] }

/-- The value write that happens while the first request is in flight. -/
def c3AfterSet : Formidable := c3Start1.1.setValue "foo" (Val.vStr "B") {}

/-- The second whole-form request, issued after the write. -/
def c3Start2 : Formidable × Option PendingValidation := c3AfterSet.validateStart none

/-- The pending result of the second request. -/
def c3Pending2 : PendingValidation :=
  c3Start2.2.getD { field := none, result := Val.vObj [] }

/-- The final state when the second (most recent) request settles first and
the superseded first request settles afterwards. -/
def c3Final : Formidable :=
  (c3Start2.1.validateSettle c3Pending2).validateSettle c3Pending1

/-- Sample state for C4. -/
def c4State : Formidable :=
  { values := Val.vObj [("foo", Val.vStr "UPDATED"), ("bar", Val.vStr "B")]
    rollbackValues := Val.vObj [("foo", Val.vStr "DEFAULT"), ("bar", Val.vStr "B")] }

/-- Second sample state for C4: `foo` carries a `valueAsNumber` parse
directive. -/
def c4ParseState : Formidable :=
  { values := Val.vObj [("foo", Val.vStr "0")]
    rollbackValues := Val.vObj [("foo", Val.vStr "0")]
    parsers := [("foo", { valueAsNumber := true })] }

/-- Validator for the C7 counterexample: always reports one error under the
flat dotted key `a.b`, the shape a field-scoped validation of the field
`"a.b"` consumes. -/
def c7DotValidator (pv : Val) : Val :=
  Val.vObj [("a.b", Val.vArr [Val.vObj [("type", Val.vStr "required"),
    ("message", Val.vStr "a.b is required"), ("value", pv)]])]

/-- Sample state for the C7 counterexample: an empty error map and a
validator reporting on the dotted field `a.b`. -/
def c7DotState : Formidable :=
  { values := Val.vObj [("a", Val.vObj [("b", Val.vStr "")])]
    rollbackValues := Val.vObj [("a", Val.vObj [("b", Val.vStr "")])]
    validator := some c7DotValidator }

/-- Sample state for C6: `foo` is registered with `valueAsNumber`. -/
def c6State : Formidable :=
  { values := Val.vObj [("foo", Val.vNum 404)]
    rollbackValues := Val.vObj [("foo", Val.vNum 404)]
    parsers := [("foo", { valueAsNumber := true })] }

/-- Validator used by the C7 witness: always reports one error on `foo` and
nothing else. -/
def c7Validator (pv : Val) : Val :=
  Val.vObj [("foo", Val.vArr [Val.vObj [("type", Val.vStr "required"),
    ("message", Val.vStr "foo is required"), ("value", pv)]])]

/-- Sample state for C7 with a pre-existing error on another field `bar`. -/
def c7State : Formidable :=
  { values := Val.vObj [("foo", Val.vStr ""), ("bar", Val.vStr "ok")]
    rollbackValues := Val.vObj [("foo", Val.vStr ""), ("bar", Val.vStr "ok")]
    errors := Val.vObj [("bar", Val.vArr [])]
    validator := some c7Validator }

/-- Sample state with one non-empty error entry. -/
def c8State : Formidable :=
  { values := Val.vObj [("foo", Val.vStr "X")]
    rollbackValues := Val.vObj [("foo", Val.vStr "X")]
    errors := Val.vObj [("foo", Val.vArr [Val.vObj [("type", Val.vStr "custom"),
      ("message", Val.vStr "bad"), ("value", Val.vStr "X")]])] }

/-- Sample state with no validator configured. -/
def c9State : Formidable :=
  { values := Val.vObj [("foo", Val.vStr "DEFAULT")]
    rollbackValues := Val.vObj [("foo", Val.vStr "DEFAULT")]
    errors := Val.vObj [("foo", Val.vArr [])] }

/-- Sample state whose single error key is the dotted path `a.b`. -/
def c10State : Formidable :=
  { values := Val.vObj []
    rollbackValues := Val.vObj []
    errors := Val.vObj [("a.b", Val.vArr [])] }

/-! ## Association-list and lodash lemmas -/

theorem directSetV_obj (fs : List (String × Val)) (k : String) (v : Val) :
    directSetV (Val.vObj fs) k v = Val.vObj (setField fs k v) := rfl

theorem directGetV_obj (fs : List (String × Val)) (k : String) :
    directGetV (Val.vObj fs) k = (objLookup fs k).getD Val.vUndef := rfl

theorem objLookup_setField_self (fs : List (String × Val)) (k : String) (v : Val) :
    objLookup (setField fs k v) k = some v := by
  induction fs with
  | nil => simp [setField, objLookup]
  | cons kv rest ih =>
    obtain ⟨k1, v1⟩ := kv
    by_cases h : k1 = k
    · simp [setField, h, objLookup]
    · simp [setField, h, objLookup, ih]

theorem objLookup_setField_other (fs : List (String × Val)) (k k2 : String) (v : Val)
    (h : k2 ≠ k) : objLookup (setField fs k v) k2 = objLookup fs k2 := by
  induction fs with
  | nil =>
    have hne : ¬k = k2 := fun hh => h hh.symm
    simp [setField, objLookup, hne]
  | cons kv rest ih =>
    obtain ⟨k1, v1⟩ := kv
    by_cases h1 : k1 = k
    · subst h1
      have hne : ¬k1 = k2 := fun hh => h hh.symm
      simp [setField, objLookup, hne]
    · by_cases h2 : k1 = k2
      · subst h2
        simp [setField, h1, objLookup]
      · simp [setField, h1, objLookup, h2, ih]

theorem setField_notMem (fs : List (String × Val)) (k : String) (v : Val)
    (h : k ∉ keyList fs) : setField fs k v = fs ++ [(k, v)] := by
  induction fs with
  | nil => simp [setField]
  | cons kv rest ih =>
    obtain ⟨k1, v1⟩ := kv
    simp only [keyList, List.map_cons, List.mem_cons] at h
    push_neg at h
    have hne : ¬k1 = k := fun hh => h.1 hh.symm
    simp [setField, hne, ih (by simpa [keyList] using h.2)]

theorem mem_keyList_setField (fs : List (String × Val)) (k k2 : String) (v : Val) :
    k2 ∈ keyList (setField fs k v) ↔ k2 = k ∨ k2 ∈ keyList fs := by
  induction fs with
  | nil => simp [setField, keyList]
  | cons kv rest ih =>
    obtain ⟨k1, v1⟩ := kv
    by_cases h : k1 = k
    · subst h
      have hset : setField ((k1, v1) :: rest) k1 v = (k1, v) :: rest := by
        simp [setField]
      rw [hset]
      simp only [keyList, List.map_cons, List.mem_cons]
      tauto
    · simp only [setField, if_neg h, keyList, List.map_cons, List.mem_cons] at ih ⊢
      rw [ih]
      tauto

theorem nodup_keyList_setField (fs : List (String × Val)) (k : String) (v : Val)
    (h : (keyList fs).Nodup) : (keyList (setField fs k v)).Nodup := by
  induction fs with
  | nil => simp [setField, keyList]
  | cons kv rest ih =>
    obtain ⟨k1, v1⟩ := kv
    simp only [keyList, List.map_cons, List.nodup_cons] at h
    by_cases hk : k1 = k
    · subst hk
      have hset : setField ((k1, v1) :: rest) k1 v = (k1, v) :: rest := by
        simp [setField]
      rw [hset]
      simp only [keyList, List.map_cons, List.nodup_cons]
      exact ⟨by simpa [keyList] using h.1, by simpa [keyList] using h.2⟩
    · simp only [setField, if_neg hk, keyList, List.map_cons, List.nodup_cons]
      refine ⟨?_, ?_⟩
      · intro hmem
        rcases (mem_keyList_setField rest k k1 v).mp (by simpa [keyList] using hmem) with h1 | h1
        · exact hk h1
        · exact h.1 (by simpa [keyList] using h1)
      · have := ih (by simpa [keyList] using h.2)
        simpa [keyList] using this

theorem objLookup_map (g : String → Val → Val) (fs : List (String × Val)) (k : String) :
    objLookup (fs.map fun kv => (kv.1, g kv.1 kv.2)) k = (objLookup fs k).map (g k) := by
  induction fs with
  | nil => simp [objLookup]
  | cons kv rest ih =>
    obtain ⟨k1, v1⟩ := kv
    by_cases h : k1 = k
    · subst h
      simp [objLookup]
    · simp [objLookup, h, ih]

theorem objLookup_removeField_self (fs : List (String × Val)) (k : String) :
    objLookup (removeField fs k) k = none := by
  induction fs with
  | nil => simp [removeField, objLookup]
  | cons kv rest ih =>
    obtain ⟨k1, v1⟩ := kv
    by_cases h : k1 = k
    · simp [removeField, h, ih]
    · simp [removeField, h, objLookup, ih]

theorem objLookup_removeField_other (fs : List (String × Val)) (k k2 : String)
    (h : k2 ≠ k) : objLookup (removeField fs k) k2 = objLookup fs k2 := by
  induction fs with
  | nil => simp [removeField, objLookup]
  | cons kv rest ih =>
    obtain ⟨k1, v1⟩ := kv
    by_cases h1 : k1 = k
    · subst h1
      have hne : ¬k1 = k2 := fun hh => h hh.symm
      simp [removeField, objLookup, hne, ih]
    · by_cases h2 : k1 = k2
      · subst h2
        simp [removeField, h1, objLookup]
      · simp [removeField, h1, objLookup, h2, ih]

theorem all_objLookup {p : String × Val → Bool} (fs : List (String × Val))
    (k : String) (v : Val) (hall : fs.all p = true) (hlk : objLookup fs k = some v) :
    p (k, v) = true := by
  induction fs with
  | nil => simp [objLookup] at hlk
  | cons kv rest ih =>
    obtain ⟨k1, v1⟩ := kv
    simp only [List.all_cons, Bool.and_eq_true] at hall
    by_cases h : k1 = k
    · subst h
      simp [objLookup] at hlk
      rw [← hlk]
      exact hall.1
    · exact ih hall.2 (by simpa [objLookup, h] using hlk)

theorem all_removeField {p : String × Val → Bool} (fs : List (String × Val))
    (k : String) (h : fs.all p = true) : (removeField fs k).all p = true := by
  induction fs with
  | nil => simp [removeField]
  | cons kv rest ih =>
    obtain ⟨k1, v1⟩ := kv
    simp only [List.all_cons, Bool.and_eq_true] at h
    by_cases hk : k1 = k
    · simp [removeField, hk, ih h.2]
    · simp [removeField, hk, h.1, ih h.2]

theorem foldl_lodashSet_simple (g : String → Val → Val) (fs : List (String × Val)) :
    ∀ accFs : List (String × Val),
      (∀ k ∈ keyList fs, hasDot k = false) →
      (keyList fs).Nodup →
      (∀ k ∈ keyList fs, k ∉ keyList accFs) →
      List.foldl (fun obj kv => lodashSet obj kv.1 (g kv.1 kv.2)) (Val.vObj accFs) fs
        = Val.vObj (accFs ++ fs.map fun kv => (kv.1, g kv.1 kv.2)) := by
  induction fs with
  | nil => intro accFs _ _ _; simp
  | cons kv rest ih =>
    intro accFs hs hn hd
    obtain ⟨k, v⟩ := kv
    have hmemk : k ∈ keyList ((k, v) :: rest) := by
      simp only [keyList, List.map_cons]
      exact List.mem_cons_self _ _
    have hmem2 : ∀ k2, k2 ∈ keyList rest → k2 ∈ keyList ((k, v) :: rest) := by
      intro k2 hk2
      simp only [keyList, List.map_cons]
      exact List.mem_cons_of_mem _ hk2
    have hk : hasDot k = false := hs k hmemk
    have hka : k ∉ keyList accFs := hd k hmemk
    have hstep : lodashSet (Val.vObj accFs) k (g k v)
        = Val.vObj (accFs ++ [(k, g k v)]) := by
      simp [lodashSet, castsAsKey, hk, directSetV, setField_notMem accFs k _ hka]
    simp only [List.foldl_cons, hstep]
    have hn1 : (k :: keyList rest).Nodup := by
      simpa only [keyList, List.map_cons] using hn
    obtain ⟨hknot, hn2⟩ := List.nodup_cons.mp hn1
    have hrec := ih (accFs ++ [(k, g k v)])
      (fun k2 hk2 => hs k2 (hmem2 k2 hk2))
      hn2
      (fun k2 hk2 => by
        have hnacc : k2 ∉ keyList accFs := hd k2 (hmem2 k2 hk2)
        have hne : k2 ≠ k := fun hEq => hknot (hEq ▸ hk2)
        simp only [keyList, List.map_append, List.mem_append, List.map_cons,
          List.map_nil, List.mem_singleton]
        push_neg
        exact ⟨by simpa only [keyList] using hnacc, hne⟩)
    rw [hrec]
    simp

theorem parsedValues_simple (st : Formidable) (fs : List (String × Val))
    (hv : st.values = Val.vObj fs)
    (hs : ∀ k ∈ keyList fs, hasDot k = false)
    (hn : (keyList fs).Nodup) :
    st.parsedValues
      = Val.vObj (fs.map fun kv => (kv.1, formatValue kv.2 (parserFor st.parsers kv.1))) := by
  unfold Formidable.parsedValues
  rw [hv]
  simpa [objFields] using
    foldl_lodashSet_simple (fun k v => formatValue v (parserFor st.parsers k)) fs []
      hs hn (by simp [keyList])

theorem lodashGet_simpleKey (fs : List (String × Val)) (f : String)
    (hf : hasDot f = false) :
    lodashGet (Val.vObj fs) f = (objLookup fs f).getD Val.vUndef := by
  simp [lodashGet, castsAsKey, hf, directGetV]

theorem lodashGet_parsedValues (st : Formidable) (fs : List (String × Val))
    (hv : st.values = Val.vObj fs)
    (hs : ∀ k ∈ keyList fs, hasDot k = false)
    (hn : (keyList fs).Nodup)
    (f : String) (hf : hasDot f = false) :
    lodashGet st.parsedValues f
      = ((objLookup fs f).map fun v => formatValue v (parserFor st.parsers f)).getD Val.vUndef := by
  rw [parsedValues_simple st fs hv hs hn, lodashGet_simpleKey _ _ hf]
  have hmap := objLookup_map (fun k v => formatValue v (parserFor st.parsers k)) fs f
  simp only [] at hmap
  rw [hmap]

theorem errorsWF_obj {e : Val} (h : errorsWF e = true) :
    ∃ fs, e = Val.vObj fs ∧ fs.all (fun kv => isErrEntry kv.2) = true := by
  cases e
  case vObj fs => exact ⟨fs, rfl, h⟩
  all_goals exact absurd h (by simp [errorsWF])

theorem hasFieldError_not_empty (v : Val) (h : hasFieldError v = true) :
    isEmptyV v = false := by
  cases v
  case vObj fs =>
    cases fs with
    | nil => simp [hasFieldError, objFields] at h
    | cons kv rest => simp [isEmptyV]
  all_goals simp [hasFieldError, objFields] at h

theorem truthy_not_nullish (v : Val) (h : truthy v = true) : isNullish v = false := by
  cases v <;> simp_all [truthy, isNullish]

theorem setField_bag_simple (fs : List (String × Val)) (f : String) (v : Val)
    (hs : ∀ k ∈ keyList fs, hasDot k = false)
    (hn : (keyList fs).Nodup)
    (hf : hasDot f = false) :
    (∀ k ∈ keyList (setField fs f v), hasDot k = false)
    ∧ (keyList (setField fs f v)).Nodup := by
  refine ⟨?_, nodup_keyList_setField fs f v hn⟩
  intro k hk
  rcases (mem_keyList_setField fs f k v).mp hk with h1 | h1
  · exact h1 ▸ hf
  · exact hs k h1

theorem validate_some_errors (st : Formidable) (vfn : Val → Val) (f : String)
    (hv : st.validator = some vfn) :
    (st.validate (some f)).errors
      = lodashSet st.errors f (lodashGet (vfn st.parsedValues) f) := by
  simp only [Formidable.validate, Formidable.validateStart, Formidable.validateSettle, hv]
  rfl

theorem validate_none_errors (st : Formidable) (vfn : Val → Val)
    (hv : st.validator = some vfn) :
    (st.validate none).errors = vfn st.parsedValues := by
  simp only [Formidable.validate, Formidable.validateStart, Formidable.validateSettle, hv]
  rfl

theorem validate_submitCount (st : Formidable) (f : Option String) :
    (st.validate f).submitCount = st.submitCount := by
  unfold Formidable.validate Formidable.validateStart Formidable.validateSettle
  cases hv : st.validator with
  | none => rfl
  | some vfn => cases f <;> rfl

theorem submit_always_finishes (st : Formidable) :
    st.submit.state.submitCount = st.submitCount + 1
    ∧ st.submit.state.isSubmitting = false := by
  simp only [Formidable.submit]
  split_ifs <;> simp [validate_submitCount]

/-! ## Claim C1: the dirty flag after setValue with shouldDirty -/

/-- C1 counterexample: after `setValue("foo", "5", shouldDirty)` the parsed
new value (the number `5`) deep-equals the parsed rollback value (also the
number `5`, since parsing the snapshot string `"5"` with the field's numeric
directive yields `5`), so the claim predicts `isDirty = false`; the code
compares the parsed new value against the raw (unparsed) snapshot string and
reports `isDirty = true`. -/
theorem c1_counterexample :
    ((c1State.setValue "foo" (Val.vStr "5") { shouldDirty := true }).getFieldState
        "foo").isDirty = true
    ∧ eqVal (formatValue (Val.vStr "5") (parserFor c1State.parsers "foo"))
        (formatValue (lodashGet c1State.rollbackValues "foo")
          (parserFor c1State.parsers "foo")) = true := by
  constructor
  · simp [c1State, Formidable.setValue, Formidable.dirtyField, Formidable.getFieldState,
      Formidable.parsedValues, directSetV, directGetV, lodashGet, lodashSet, castsAsKey,
      hasDot, hasOwnKey, objLookup, setField, objFields, keyList, parserFor, formatValue,
      toNumber, parseIntChars, digitsToNat, getSegs, splitPath, splitChars,
      eqVal, eqValList, eqFieldsSub, lookupEq]
  · simp [c1State, parserFor, formatValue, toNumber, parseIntChars, digitsToNat,
      lodashGet, castsAsKey, hasDot, hasOwnKey, objLookup, directGetV,
      eqVal, eqValList, eqFieldsSub, lookupEq]

/-- C1 as amended: after `setValue(f, v, shouldDirty)` the field's dirty flag
equals the deep inequality of the raw (unparsed) rollback-snapshot value of
`f` — as read by `getDefaultValue` — and the parsed new value; the snapshot
side is not passed through the field's parse directive. -/
theorem c1_dirty_raw_rollback (st : Formidable) (fs dfs : List (String × Val))
    (f : String) (v : Val)
    (hv : st.values = Val.vObj fs)
    (hd : st.dirtyFields = Val.vObj dfs)
    (hs : ∀ k ∈ keyList fs, hasDot k = false)
    (hn : (keyList fs).Nodup)
    (hf : hasDot f = false) :
    ((st.setValue f v { shouldDirty := true }).getFieldState f).isDirty
      = !eqVal (st.getDefaultValue f) (formatValue v (parserFor st.parsers f)) := by
  obtain ⟨hs2, hn2⟩ := setField_bag_simple fs f v hs hn hf
  have hparsed : lodashGet ({ st with values := directSetV st.values f v } :
      Formidable).parsedValues f = formatValue v (parserFor st.parsers f) := by
    rw [lodashGet_parsedValues ({ st with values := directSetV st.values f v })
      (setField fs f v) (by simp [hv, directSetV]) hs2 hn2 f hf]
    rw [show ({ st with values := directSetV st.values f v } : Formidable).parsers
      = st.parsers from rfl, objLookup_setField_self]
    rfl
  show ((({ st with values := directSetV st.values f v } : Formidable).dirtyField
      f).getFieldState f).isDirty = _
  unfold Formidable.dirtyField Formidable.getFieldState
  rw [hparsed]
  simp only [hd]
  simp only [directSetV_obj, directGetV_obj, objLookup_setField_self, Option.getD_some]
  rfl

/-- Witness for the amended C1 at a concrete state: the numeric-parsed new
value `"5"` is compared against the raw snapshot string `"5"`. -/
theorem c1_witness :
    (c1State.values = Val.vObj [("foo", Val.vStr "0")]
      ∧ c1State.dirtyFields = Val.vObj []
      ∧ (∀ k ∈ keyList [("foo", Val.vStr "0")], hasDot k = false)
      ∧ (keyList [("foo", Val.vStr "0")]).Nodup
      ∧ hasDot "foo" = false)
    ∧ ((c1State.setValue "foo" (Val.vStr "5") { shouldDirty := true }).getFieldState
          "foo").isDirty
        = !eqVal (c1State.getDefaultValue "foo")
            (formatValue (Val.vStr "5") (parserFor c1State.parsers "foo")) :=
  ⟨⟨rfl, rfl, by decide, by decide, by decide⟩,
    c1_dirty_raw_rollback c1State [("foo", Val.vStr "0")] [] "foo" (Val.vStr "5")
      rfl rfl (by decide) (by decide) (by decide)⟩

/-! ## Claim C2: submit on an invalid form -/

/-- C2: on a submit where validation runs and the validator reports at least
one field error, `isSubmitSuccessful` is set to `false`, neither the external
`onSubmit` handler nor the legacy changed-values handler is invoked, and
`submitCount` still increments by exactly one; moreover for every state (any
validity, any handler configuration, including a throwing handler) the
`finally` increments `submitCount` and clears the in-flight `isSubmitting`
flag. -/
theorem c2_submit_invalid (st other : Formidable) (vfn : Val → Val)
    (hv : st.validator = some vfn)
    (ht : st.shouldValidateOrRevalidate HandlerEvent.onSubmit = true)
    (he : hasFieldError (vfn st.parsedValues) = true) :
    (st.submit.handlerInvoked = false)
    ∧ (st.submit.state.isSubmitSuccessful = some false)
    ∧ (st.submit.state.submitCount = st.submitCount + 1)
    ∧ (st.submit.state.isSubmitting = false)
    ∧ (other.submit.state.submitCount = other.submitCount + 1
        ∧ other.submit.state.isSubmitting = false) := by
  have hsub := submit_always_finishes st
  have ht1 : ({ st with isSubmitting := true, isSubmitted := true } :
      Formidable).shouldValidateOrRevalidate HandlerEvent.onSubmit = true := ht
  have hval : (({ st with isSubmitting := true, isSubmitted := true } :
      Formidable).validate none).errors = vfn st.parsedValues :=
    validate_none_errors _ vfn hv
  have hinvalid : (({ st with isSubmitting := true, isSubmitted := true } :
      Formidable).validate none).isValid = false := by
    unfold Formidable.isValid
    rw [hval]
    exact hasFieldError_not_empty _ he
  have key : st.submit.handlerInvoked = false
      ∧ st.submit.state.isSubmitSuccessful = some false := by
    simp only [Formidable.submit]
    rw [if_pos ht1, if_neg (by simp [hinvalid])]
    exact ⟨rfl, by simp [hinvalid]⟩
  exact ⟨key.1, key.2, hsub.1, hsub.2, submit_always_finishes other⟩

/-- Witness for C2 at a concrete state whose validator always reports an
error. -/
theorem c2_witness :
    (c2State.validator = some c2Validator
      ∧ c2State.shouldValidateOrRevalidate HandlerEvent.onSubmit = true
      ∧ hasFieldError (c2Validator c2State.parsedValues) = true)
    ∧ (c2State.submit.handlerInvoked = false)
    ∧ (c2State.submit.state.isSubmitSuccessful = some false)
    ∧ (c2State.submit.state.submitCount = c2State.submitCount + 1)
    ∧ (c2State.submit.state.isSubmitting = false)
    ∧ (c2State.submit.state.submitCount = c2State.submitCount + 1
        ∧ c2State.submit.state.isSubmitting = false) :=
  ⟨⟨rfl, by decide, by decide⟩,
    c2_submit_invalid c2State c2State c2Validator rfl (by decide) (by decide)⟩

/-! ## Claim C3: superseding of overlapping whole-form validations -/

/-- C3 counterexample: the superseded first request's result is applied to
the error map after the second request has started — and even settled — so
the final error map is the stale non-empty one rather than the most recent
(empty) one; the restartable-supersession contract does not hold for the
current plain-async `validate`. -/
theorem c3_counterexample :
    c3Final.errors = c3Pending1.result
    ∧ c3Pending1.result = c3ErrorMap
    ∧ c3Pending2.result = Val.vObj []
    ∧ isEmptyV c3Final.errors = false :=
  ⟨rfl, rfl, rfl, rfl⟩

/-- C3 as amended: the current `validate` applies each settling request's
result unconditionally — there is no supersession — so when two whole-form
requests overlap, the final error map is the result of whichever request
settles last, regardless of which was requested last. -/
theorem c3_last_settle_wins (st : Formidable) (p1 p2 : PendingValidation)
    (h1 : p1.field = none) (h2 : p2.field = none) :
    ((st.validateSettle p1).validateSettle p2).errors = p2.result
    ∧ (st.validateSettle p1).errors = p1.result := by
  unfold Formidable.validateSettle
  rw [h1, h2]
  exact ⟨rfl, rfl⟩

/-- Witness for the amended C3 at concrete pending requests. -/
theorem c3_witness :
    (({ field := none, result := c3ErrorMap } : PendingValidation).field = none
      ∧ ({ field := none, result := Val.vObj [] } : PendingValidation).field = none)
    ∧ ((c3State.validateSettle { field := none, result := c3ErrorMap }).validateSettle
        { field := none, result := Val.vObj [] }).errors = Val.vObj []
    ∧ (c3State.validateSettle { field := none, result := c3ErrorMap }).errors = c3ErrorMap :=
  ⟨⟨rfl, rfl⟩,
    c3_last_settle_wins c3State { field := none, result := c3ErrorMap }
      { field := none, result := Val.vObj [] } rfl rfl⟩

/-! ## Claim C4: single-field rollback with an explicit default -/

/-- C4 counterexample: `rollback("foo", defaultValue: "")` — a supplied but
falsy default — sets the live value of `foo` to `""` (the nullish coalescing
`defaultValue ?? ...` keeps a falsy non-nullish default) yet leaves the
rollback snapshot at `"DEFAULT"`, because the snapshot update is guarded by a
JS truthiness test (`if (defaultValue)`), so the claim's prediction
`getDefaultValue("foo") == ""` fails; and on a field registered with
`valueAsNumber`, `rollback("foo", defaultValue: "5")` is followed by
`getValue("foo") == 5` (the parsed projection), not the supplied string
`"5"`, so the claim's prediction `getValue(f) == d` fails as well. -/
theorem c4_counterexample :
    (c4State.rollback (some "foo") { defaultValue := Val.vStr "" }).getDefaultValue "foo"
      = Val.vStr "DEFAULT"
    ∧ directGetV (c4State.rollback (some "foo") { defaultValue := Val.vStr "" }).values "foo"
      = Val.vStr ""
    ∧ eqVal (Val.vStr "DEFAULT") (Val.vStr "") = false
    ∧ (c4ParseState.rollback (some "foo") { defaultValue := Val.vStr "5" }).getValue "foo"
      = Val.vNum 5
    ∧ eqVal (Val.vNum 5) (Val.vStr "5") = false := by
  refine ⟨rfl, rfl, ?_, rfl, ?_⟩
  · simp [eqVal]
  · simp [eqVal]

/-- C4 as amended: `rollback(f, defaultValue: d)` with a supplied
(non-nullish) `d` sets the raw live value of `f` to `d`, so `getValue(f)` is
`d` transformed by the field's registered parse directive (`d` itself when
none is registered); `d` becomes the new rollback-snapshot value — and hence
`getDefaultValue(f) == d` — only when `d` is truthy, while a falsy
non-nullish `d` leaves the snapshot unchanged; with a missing (nullish)
`defaultValue` the field's raw value is reset to the existing snapshot value
when that is non-nullish, else to `undefined`, and the snapshot is
unchanged. -/
theorem c4_rollback_default (st : Formidable) (vfs rfs : List (String × Val))
    (f : String) (d : Val)
    (hv : st.values = Val.vObj vfs)
    (hr : st.rollbackValues = Val.vObj rfs)
    (hs : ∀ k ∈ keyList vfs, hasDot k = false)
    (hn : (keyList vfs).Nodup)
    (hf : hasDot f = false)
    (hd : isNullish d = false) :
    (directGetV (st.rollback (some f) { defaultValue := d }).values f = d)
    ∧ ((st.rollback (some f) { defaultValue := d }).getValue f
        = formatValue d (parserFor st.parsers f))
    ∧ (parserFor st.parsers f = none →
        (st.rollback (some f) { defaultValue := d }).getValue f = d)
    ∧ (truthy d = true →
        (st.rollback (some f) { defaultValue := d }).getDefaultValue f = d)
    ∧ (truthy d = false →
        (st.rollback (some f) { defaultValue := d }).rollbackValues = st.rollbackValues)
    ∧ (directGetV (st.rollback (some f) {}).values f
        = nullishElse (directGetV st.rollbackValues f) Val.vUndef)
    ∧ ((st.rollback (some f) {}).rollbackValues = st.rollbackValues) := by
  have hnv : nullishElse d (nullishElse (directGetV st.rollbackValues f) Val.vUndef)
      = d := by
    simp [nullishElse, hd]
  have hval2 : (st.rollback (some f) { defaultValue := d }).values
      = directSetV st.values f d := by
    unfold Formidable.rollback
    simp only [hnv]
    cases htr : truthy d <;> simp [htr]
  have hpars : (st.rollback (some f) { defaultValue := d }).parsers = st.parsers := by
    unfold Formidable.rollback
    cases htr : truthy d <;> simp [htr]
  have hrbT : truthy d = true →
      (st.rollback (some f) { defaultValue := d }).rollbackValues
        = directSetV st.rollbackValues f d := by
    intro htr
    unfold Formidable.rollback
    simp [htr]
  have hstate0 : st.rollback (some f) ({} : RollbackContext)
      = { st with
            values := (directSetV st.values f
              (nullishElse (directGetV st.rollbackValues f) Val.vUndef)),
            errors := (lodashUnset st.errors f),
            dirtyFields := (lodashUnset st.dirtyFields f) } := by
    unfold Formidable.rollback
    rfl
  obtain ⟨hs2, hn2⟩ := setField_bag_simple vfs f d hs hn hf
  have hb : (st.rollback (some f) { defaultValue := d }).getValue f
      = formatValue d (parserFor st.parsers f) := by
    unfold Formidable.getValue
    rw [lodashGet_parsedValues _ (setField vfs f d)
      (by rw [hval2, hv, directSetV_obj]) hs2 hn2 f hf]
    rw [hpars, objLookup_setField_self]
    rfl
  refine ⟨?_, hb, ?_, ?_, ?_, ?_, ?_⟩
  · rw [hval2, hv, directSetV_obj, directGetV_obj, objLookup_setField_self]
    rfl
  · intro hnone
    rw [hb, hnone]
    rfl
  · intro htr
    unfold Formidable.getDefaultValue
    rw [hrbT htr, hr, directSetV_obj, lodashGet_simpleKey _ _ hf,
      objLookup_setField_self]
    rfl
  · intro htr
    unfold Formidable.rollback
    simp [htr]
  · rw [hstate0]
    rw [show ({ st with
          values := (directSetV st.values f
            (nullishElse (directGetV st.rollbackValues f) Val.vUndef)),
          errors := (lodashUnset st.errors f),
          dirtyFields := (lodashUnset st.dirtyFields f) } : Formidable).values
        = directSetV st.values f
            (nullishElse (directGetV st.rollbackValues f) Val.vUndef) from rfl]
    rw [hv, directSetV_obj, directGetV_obj, objLookup_setField_self]
    rfl
  · rw [hstate0]

/-- Witness for the amended C4 at a concrete state and a truthy default. -/
theorem c4_witness :
    (c4State.values = Val.vObj [("foo", Val.vStr "UPDATED"), ("bar", Val.vStr "B")]
      ∧ c4State.rollbackValues = Val.vObj [("foo", Val.vStr "DEFAULT"), ("bar", Val.vStr "B")]
      ∧ (∀ k ∈ keyList [("foo", Val.vStr "UPDATED"), ("bar", Val.vStr "B")], hasDot k = false)
      ∧ (keyList [("foo", Val.vStr "UPDATED"), ("bar", Val.vStr "B")]).Nodup
      ∧ hasDot "foo" = false
      ∧ isNullish (Val.vStr "Shiny and new!") = false)
    ∧ (directGetV (c4State.rollback (some "foo")
          { defaultValue := Val.vStr "Shiny and new!" }).values "foo"
        = Val.vStr "Shiny and new!")
    ∧ ((c4State.rollback (some "foo") { defaultValue := Val.vStr "Shiny and new!" }).getValue "foo"
        = formatValue (Val.vStr "Shiny and new!") (parserFor c4State.parsers "foo"))
    ∧ (parserFor c4State.parsers "foo" = none →
        (c4State.rollback (some "foo") { defaultValue := Val.vStr "Shiny and new!" }).getValue "foo"
          = Val.vStr "Shiny and new!")
    ∧ (truthy (Val.vStr "Shiny and new!") = true →
        (c4State.rollback (some "foo") { defaultValue := Val.vStr "Shiny and new!" }).getDefaultValue "foo"
          = Val.vStr "Shiny and new!")
    ∧ (truthy (Val.vStr "Shiny and new!") = false →
        (c4State.rollback (some "foo") { defaultValue := Val.vStr "Shiny and new!" }).rollbackValues
          = c4State.rollbackValues)
    ∧ (directGetV (c4State.rollback (some "foo") {}).values "foo"
        = nullishElse (directGetV c4State.rollbackValues "foo") Val.vUndef)
    ∧ ((c4State.rollback (some "foo") {}).rollbackValues = c4State.rollbackValues) :=
  ⟨⟨rfl, rfl, by decide, by decide, by decide, by decide⟩,
    c4_rollback_default c4State
      [("foo", Val.vStr "UPDATED"), ("bar", Val.vStr "B")]
      [("foo", Val.vStr "DEFAULT"), ("bar", Val.vStr "B")]
      "foo" (Val.vStr "Shiny and new!") rfl rfl (by decide) (by decide) (by decide)
      (by decide)⟩


/-! ## Claim C5: whole-form rollback is idempotent -/

/-- C5: for every store state and every fixed choice of `keepError`/`keepDirty`
options, calling `rollback()` with no field twice in a row yields exactly the
state of calling it once; each call replaces the live values with a fresh deep
copy of the rollback snapshot and resets `isSubmitted` to `false`
unconditionally. -/
theorem c5_rollback_idempotent (st : Formidable) (ctx : RollbackContext) :
    (st.rollback none ctx).rollback none ctx = st.rollback none ctx
    ∧ (st.rollback none ctx).values = st.rollbackValues
    ∧ (st.rollback none ctx).isSubmitted = false := by
  unfold Formidable.rollback
  cases hE : ctx.keepError <;> cases hD : ctx.keepDirty <;> simp [hE, hD]

/-! ## Claim C6: setValue / getValue round-trip through the parse directive -/

/-- C6: for every field and raw value, `setValue(f, v)` followed by
`getValue(f)` returns `v` transformed by exactly the one parse directive
registered for `f` (identity when none is registered), and the directive
application obeys the precedence custom formatter > numeric coercion > date
coercion > boolean coercion > identity, with at most one directive applied. -/
theorem c6_roundtrip (st : Formidable) (fs : List (String × Val))
    (f : String) (v : Val)
    (hv : st.values = Val.vObj fs)
    (hs : ∀ k ∈ keyList fs, hasDot k = false)
    (hn : (keyList fs).Nodup)
    (hf : hasDot f = false) :
    ((st.setValue f v {}).getValue f = formatValue v (parserFor st.parsers f))
    ∧ (parserFor st.parsers f = none → (st.setValue f v {}).getValue f = v)
    ∧ (∀ cfg fmt, cfg.valueFormat = some fmt → formatValue v (some cfg) = fmt v)
    ∧ (∀ cfg : ParserCfg, cfg.valueFormat = none → cfg.valueAsNumber = true →
        formatValue v (some cfg) = toNumber v)
    ∧ (∀ cfg : ParserCfg, cfg.valueFormat = none → cfg.valueAsNumber = false →
        cfg.valueAsDate = true → formatValue v (some cfg) = toDate v)
    ∧ (∀ cfg : ParserCfg, cfg.valueFormat = none → cfg.valueAsNumber = false →
        cfg.valueAsDate = false → cfg.valueAsBoolean = true →
        formatValue v (some cfg) = toBoolean v)
    ∧ (∀ cfg : ParserCfg, cfg.valueFormat = none → cfg.valueAsNumber = false →
        cfg.valueAsDate = false → cfg.valueAsBoolean = false →
        formatValue v (some cfg) = v) := by
  obtain ⟨hs2, hn2⟩ := setField_bag_simple fs f v hs hn hf
  have hval : (st.setValue f v {}).values = Val.vObj (setField fs f v) := by
    simp [Formidable.setValue, hv, directSetV]
  have hpar : (st.setValue f v {}).parsers = st.parsers := by
    simp [Formidable.setValue]
  have hmain : (st.setValue f v {}).getValue f = formatValue v (parserFor st.parsers f) := by
    unfold Formidable.getValue
    rw [lodashGet_parsedValues (st.setValue f v {}) (setField fs f v) hval hs2 hn2 f hf,
      hpar, objLookup_setField_self]
    rfl
  refine ⟨hmain, ?_, ?_, ?_, ?_, ?_, ?_⟩
  · intro hnone
    rw [hmain, hnone]
    rfl
  · intro cfg fmt hfmt
    simp [formatValue, hfmt]
  · intro cfg h1 h2
    simp [formatValue, h1, h2]
  · intro cfg h1 h2 h3
    simp [formatValue, h1, h2, h3]
  · intro cfg h1 h2 h3 h4
    simp [formatValue, h1, h2, h3, h4]
  · intro cfg h1 h2 h3 h4
    simp [formatValue, h1, h2, h3, h4]

/-- Witness for C6: setting the string `"5"` on a `valueAsNumber` field reads
back as the number `5`. -/
theorem c6_witness :
    (c6State.values = Val.vObj [("foo", Val.vNum 404)]
      ∧ (∀ k ∈ keyList [("foo", Val.vNum 404)], hasDot k = false)
      ∧ (keyList [("foo", Val.vNum 404)]).Nodup
      ∧ hasDot "foo" = false)
    ∧ (c6State.setValue "foo" (Val.vStr "5") {}).getValue "foo"
        = formatValue (Val.vStr "5") (parserFor c6State.parsers "foo")
    ∧ formatValue (Val.vStr "5") (parserFor c6State.parsers "foo") = Val.vNum 5 :=
  ⟨⟨rfl, by decide, by decide, by decide⟩,
    (c6_roundtrip c6State [("foo", Val.vNum 404)] "foo" (Val.vStr "5") rfl
      (by decide) (by decide) (by decide)).1,
    rfl⟩

/-! ## Claim C7: field-scoped validate only touches that field's entry -/

/-- C7 counterexample: a field-scoped validation of the dotted field `a.b`
against an empty error map runs `_set(this.errors, "a.b", get(validation,
"a.b"))`; since the error map has no literal `a.b` key, lodash `set` expands
the path, so the slice the validator reported for `a.b` is written at the
nested path `errors.a.b` — field `a`'s error entry changes (its
`getFieldState` flips to invalid) while field `a.b`'s own flat entry, the one
`getFieldState("a.b")` reads, is never updated and the field stays reported
valid despite a reported error. -/
theorem c7_counterexample :
    directGetV (c7DotState.validate (some "a.b")).errors "a.b" = Val.vUndef
    ∧ lodashGet (c7DotValidator c7DotState.parsedValues) "a.b"
      = Val.vArr [Val.vObj [("type", Val.vStr "required"),
          ("message", Val.vStr "a.b is required"),
          ("value", c7DotState.parsedValues)]]
    ∧ ((c7DotState.validate (some "a.b")).getFieldState "a.b").isInvalid = false
    ∧ directGetV c7DotState.errors "a" = Val.vUndef
    ∧ directGetV (c7DotState.validate (some "a.b")).errors "a"
      = Val.vObj [("b", Val.vArr [Val.vObj [("type", Val.vStr "required"),
          ("message", Val.vStr "a.b is required"),
          ("value", c7DotState.parsedValues)]])]
    ∧ (c7DotState.getFieldState "a").isInvalid = false
    ∧ ((c7DotState.validate (some "a.b")).getFieldState "a").isInvalid = true :=
  ⟨rfl, rfl, rfl, rfl, rfl, rfl, rfl⟩

/-- C7 as amended: after a completed validation run whose field argument is a
dot-free field name, that field's entry in the error map is replaced by the
validator result's slice for it (`get(validation, field)`) and every other
field's entry is untouched; without a field argument the whole error map is
replaced by the validator's result.  (For a dotted field path with no literal
key in the error map, the `_set` instead expands the path, mutating the
prefix field's entry, as the counterexample shows.) -/
theorem c7_validate_frame (st : Formidable) (vfn : Val → Val)
    (efs : List (String × Val)) (f : String)
    (hv : st.validator = some vfn)
    (he : st.errors = Val.vObj efs)
    (hf : hasDot f = false) :
    (directGetV (st.validate (some f)).errors f = lodashGet (vfn st.parsedValues) f)
    ∧ (∀ k, k ≠ f → directGetV (st.validate (some f)).errors k = directGetV st.errors k)
    ∧ ((st.validate none).errors = vfn st.parsedValues) := by
  have hset : (st.validate (some f)).errors
      = Val.vObj (setField efs f (lodashGet (vfn st.parsedValues) f)) := by
    rw [validate_some_errors st vfn f hv, he]
    have hck : castsAsKey f (Val.vObj efs) = true := by simp [castsAsKey, hf]
    simp [lodashSet, hck, directSetV]
  refine ⟨?_, ?_, validate_none_errors st vfn hv⟩
  · rw [hset]
    simp [directGetV, objLookup_setField_self]
  · intro k hk
    rw [hset, he]
    simp [directGetV, objLookup_setField_other efs f k _ hk]

/-- Witness for C7: validating `foo` rewrites only the `foo` entry and leaves
the `bar` entry alone. -/
theorem c7_witness :
    (c7State.validator = some c7Validator
      ∧ c7State.errors = Val.vObj [("bar", Val.vArr [])]
      ∧ hasDot "foo" = false)
    ∧ (directGetV (c7State.validate (some "foo")).errors "foo"
        = lodashGet (c7Validator c7State.parsedValues) "foo")
    ∧ (∀ k, k ≠ "foo" →
        directGetV (c7State.validate (some "foo")).errors k = directGetV c7State.errors k)
    ∧ ((c7State.validate none).errors = c7Validator c7State.parsedValues) :=
  ⟨⟨rfl, rfl, by decide⟩,
    c7_validate_frame c7State c7Validator [("bar", Val.vArr [])] "foo" rfl rfl (by decide)⟩

/-! ## Claim C8: validity is exactly emptiness of the error map -/

/-- C8: in every state with a well-formed error map, a field is reported
invalid by `getFieldState` exactly when it has a non-empty error entry, and
the form-level `isValid` holds exactly when the error map has no keys; the
invariant is a pure derived read, and `clearError` / `clearErrors` preserve
the well-formedness it rests on (with `clearError` additionally leaving the
cleared field without a non-empty entry). -/
theorem c8_validity_invariant (st : Formidable) (f : String)
    (hwf : errorsWF st.errors = true) :
    ((st.getFieldState f).isInvalid = hasNonEmptyErrorEntry st.errors f)
    ∧ (st.isValid = true ↔ objFields st.errors = [])
    ∧ (errorsWF (st.clearErrors).errors = true ∧ (st.clearErrors).isValid = true)
    ∧ (hasDot f = false →
        errorsWF (st.clearError f).errors = true
        ∧ hasNonEmptyErrorEntry (st.clearError f).errors f = false) := by
  obtain ⟨efs, he, hall⟩ := errorsWF_obj hwf
  refine ⟨?_, ?_, ⟨rfl, rfl⟩, ?_⟩
  · simp only [Formidable.getFieldState, hasNonEmptyErrorEntry, he, directGetV]
    cases hlk : objLookup efs f with
    | none => simp [isEmptyV]
    | some v =>
      have hent : isErrEntry v = true := all_objLookup efs f v hall hlk
      cases v
      case vArr xs => cases xs <;> simp [isEmptyV]
      case vUndef => simp [isEmptyV]
      all_goals exact absurd hent (by simp [isErrEntry])
  · simp only [Formidable.isValid, he, isEmptyV, objFields]
    exact ⟨fun hh => List.isEmpty_iff.mp hh, fun hh => List.isEmpty_iff.mpr hh⟩
  · intro hf
    unfold Formidable.clearError
    rw [he]
    cases hlk : objLookup efs f with
    | none =>
      simp only [directGetV, hlk, Option.getD_none, truthy, Bool.false_eq_true, if_false]
      exact ⟨hwf, by simp [hasNonEmptyErrorEntry, he, directGetV, hlk]⟩
    | some v =>
      have hent : isErrEntry v = true := all_objLookup efs f v hall hlk
      cases v
      case vUndef =>
        simp only [directGetV, hlk, Option.getD_some, truthy, Bool.false_eq_true, if_false]
        exact ⟨hwf, by simp [hasNonEmptyErrorEntry, he, directGetV, hlk]⟩
      case vArr xs =>
        simp only [directGetV, hlk, Option.getD_some, truthy, if_true]
        have hck : castsAsKey f (Val.vObj efs) = true := by
          simp [castsAsKey, hf]
        simp only [lodashUnset, hck, if_true, directUnsetV]
        refine ⟨?_, ?_⟩
        · simp only [errorsWF]
          exact all_removeField efs f hall
        · simp [hasNonEmptyErrorEntry, directGetV, objLookup_removeField_self]
      all_goals exact absurd hent (by simp [isErrEntry])

/-- Witness for C8 at a concrete state with one error. -/
theorem c8_witness :
    errorsWF c8State.errors = true
    ∧ (((c8State.getFieldState "foo").isInvalid = hasNonEmptyErrorEntry c8State.errors "foo")
      ∧ (c8State.isValid = true ↔ objFields c8State.errors = [])
      ∧ (errorsWF (c8State.clearErrors).errors = true ∧ (c8State.clearErrors).isValid = true)
      ∧ (hasDot "foo" = false →
          errorsWF (c8State.clearError "foo").errors = true
          ∧ hasNonEmptyErrorEntry (c8State.clearError "foo").errors "foo" = false)) :=
  ⟨by decide, c8_validity_invariant c8State "foo" (by decide)⟩

/-! ## Claim C9: validate without a validator leaves the error map unchanged -/

/-- C9: if no validator function was supplied, `validate` returns early (from
inside the `try`, with the `finally` only clearing `isValidating`) and the
error map before and after the call is identical, for a field-scoped or a
whole-form request alike. -/
theorem c9_no_validator_errors_unchanged (st : Formidable) (field : Option String)
    (h : st.validator = none) :
    (st.validate field).errors = st.errors := by
  simp [Formidable.validate, Formidable.validateStart, h]

/-- Witness for C9 at a concrete state. -/
theorem c9_witness :
    c9State.validator = none ∧ (c9State.validate none).errors = c9State.errors :=
  ⟨rfl, c9_no_validator_errors_unchanged c9State none rfl⟩

/-! ## Claim C10: invalidFields expands dotted error keys into nesting -/

/-- C10: `invalidFields` is built by `_set`-ing each error-map key into a fresh
object as a dotted path, so an error recorded under a key that splits as
`a.b` yields a nested object mapping `a` to an object mapping `b` to `true`,
and no top-level dotted key. -/
theorem c10_invalidFields_nested (st : Formidable) (k a b : String) (entry : Val)
    (he : st.errors = Val.vObj [(k, entry)])
    (hsplit : splitPath k = [a, b])
    (hdot : hasDot k = true)
    (hb : isIndexStr b = false)
    (ha : hasDot a = false) :
    st.invalidFields = Val.vObj [(a, Val.vObj [(b, Val.vBool true)])]
    ∧ directGetV st.invalidFields k = Val.vUndef := by
  have hak : a ≠ k := by
    intro hEq
    rw [hEq] at ha
    rw [ha] at hdot
    exact Bool.false_ne_true hdot
  have hmain : st.invalidFields = Val.vObj [(a, Val.vObj [(b, Val.vBool true)])] := by
    unfold Formidable.invalidFields
    rw [he]
    simp only [objFields, keyList, List.map_cons, List.map_nil, List.foldl_cons,
      List.foldl_nil]
    rw [lodashSet]
    have hck : castsAsKey k (Val.vObj []) = false := by
      simp [castsAsKey, hdot, hasOwnKey, objLookup]
    rw [hck]
    simp only [Bool.false_eq_true, if_false, hsplit]
    simp [setSegs, directGetV, objLookup, isObjLike, hb, directSetV, setField]
  refine ⟨hmain, ?_⟩
  rw [hmain]
  simp [directGetV, objLookup, fun hh : a = k => hak hh]

/-- Witness for C10 at a concrete dotted error key. -/
theorem c10_witness :
    (c10State.errors = Val.vObj [("a.b", Val.vArr [])]
      ∧ splitPath "a.b" = ["a", "b"]
      ∧ hasDot "a.b" = true
      ∧ isIndexStr "b" = false
      ∧ hasDot "a" = false)
    ∧ c10State.invalidFields = Val.vObj [("a", Val.vObj [("b", Val.vBool true)])]
    ∧ directGetV c10State.invalidFields "a.b" = Val.vUndef :=
  ⟨⟨rfl, by decide, by decide, by decide, by decide⟩,
    c10_invalidFields_nested c10State "a.b" "a" "b" (Val.vArr []) rfl (by decide)
      (by decide) (by decide) (by decide)⟩
